import Mathlib

/-!
Verification of the cryptographic core of the `whispers` repository
(React-Native client `utils/keys.ts` and Node.js relay backend
`src/server.js` / `src/db.js`).

Conventions of the shallow embedding:
* JavaScript byte arrays (`Uint8Array`, Node `Buffer`) are `List (Fin 256)`.
* JavaScript strings are Lean `String`s.
* Functions that can throw are embedded returning `Option`, with `none`
  standing for a thrown exception; a surrounding `try/catch` that maps any
  exception to `null` is embedded by propagating `none`.
* `Date.now()`, random seeds, random nonces and the stored key bundle
  (`getKeys`) are passed as explicit parameters (state-passing translation
  of the ambient clock, the random source and the secure store).
* The external cryptographic libraries (`@noble/curves`, `@noble/ciphers`,
  `tweetnacl`, `expo-crypto` digests, `TextEncoder`/`TextDecoder`,
  `JSON.stringify`/`JSON.parse` for the fixed record shapes) are abstracted
  as a `CryptoPrims` structure carrying the operations together with their
  standard correctness laws; a small executable instance `toyCrypto` is
  provided so that all theorems can be evaluated on concrete inputs.
-/

/-! ### Bytes and hex encoding (from `utils/keys.ts`: `toHex`, `hexToBytes`) -/

/-- Value of a hex digit, as accepted by JavaScript `parseInt(_, 16)`:
`0-9`, `a-f` and `A-F`. -/
def hexDigitVal (c : Char) : Option (Fin 16) :=
  let n := c.toNat
  if h : 48 ≤ n ∧ n ≤ 57 then some ⟨n - 48, by omega⟩
  else if h : 97 ≤ n ∧ n ≤ 102 then some ⟨n - 87, by omega⟩
  else if h : 65 ≤ n ∧ n ≤ 70 then some ⟨n - 55, by omega⟩
  else none

/-- `parseInt(two-char-string, 16)` followed by storage into a `Uint8Array`
cell: an invalid first digit yields `NaN`, which the typed array stores
as `0`; a valid first digit followed by an invalid second digit parses the
one-digit value (`parseInt` takes the longest valid numeric head). -/
def parsePair (c1 c2 : Char) : Fin 256 :=
  match hexDigitVal c1 with
  | none => ⟨0, by omega⟩
  | some h =>
    match hexDigitVal c2 with
    | none => ⟨h.val, by have := h.isLt; omega⟩
    | some l => ⟨16 * h.val + l.val, by have := h.isLt; have := l.isLt; omega⟩

/-- Char-list worker for `hexToBytes`.  An odd-length input makes the source
throw (`new Uint8Array(hex.length / 2)` with a fractional length), embedded
as `none`. -/
def hexToBytesAux : List Char → Option (List (Fin 256))
  | [] => some []
  | [_] => none
  | c1 :: c2 :: rest => (hexToBytesAux rest).map (fun bs => parsePair c1 c2 :: bs)

/-- `utils/keys.ts` `hexToBytes`: decode a hex string two characters at a
time into a byte array. -/
def hexToBytes (s : String) : Option (List (Fin 256)) :=
  hexToBytesAux s.data

/-- One byte of `utils/keys.ts` `toHex`: `b.toString(16).padStart(2, '0')`.
For `b < 256` this is exactly the two lowercase hex digits of `b`. -/
def byteToHex (b : Fin 256) : String :=
  String.mk [Nat.digitChar (b.val / 16), Nat.digitChar (b.val % 16)]

/-- `utils/keys.ts` `toHex`: map every byte to two hex characters and join. -/
def toHex : List (Fin 256) → String
  | [] => ""
  | b :: rest => byteToHex b ++ toHex rest

/-- Char-list worker for Node's `Buffer.from(s, 'hex')`: decodes pairs of
hex digits and stops (without throwing) at the first invalid or incomplete
pair. -/
def bufferFromHexAux : List Char → List (Fin 256)
  | c1 :: c2 :: rest =>
    (match hexDigitVal c1, hexDigitVal c2 with
     | some h, some l =>
       (⟨16 * h.val + l.val, by have := h.isLt; have := l.isLt; omega⟩ : Fin 256)
         :: bufferFromHexAux rest
     | _, _ => [])
  | _ => []

/-- Node `Buffer.from(s, 'hex')` (used by `verifyRequestSignature` in
`src/server.js`). -/
def bufferFromHex (s : String) : List (Fin 256) :=
  bufferFromHexAux s.data

/-- `originKeys.ed25519.replace(/^0x/, '')` from `src/server.js`. -/
def strip0x (s : String) : String :=
  match s.data with
  | '0' :: 'x' :: rest => String.mk rest
  | _ => s

/-! #### Round-trip facts about the hex codecs -/

theorem hexDigitVal_digitChar : ∀ n : Fin 16, hexDigitVal (Nat.digitChar n.val) = some n := by
  decide

theorem digitChar_ne_x : ∀ n : Fin 16, Nat.digitChar n.val ≠ 'x' := by
  decide

theorem byteToHex_data (b : Fin 256) :
    (byteToHex b).data = [Nat.digitChar (b.val / 16), Nat.digitChar (b.val % 16)] := rfl

theorem parsePair_digitChar (b : Fin 256) :
    parsePair (Nat.digitChar (b.val / 16)) (Nat.digitChar (b.val % 16)) = b := by
  have h1 := hexDigitVal_digitChar ⟨b.val / 16, by have := b.isLt; omega⟩
  have h2 := hexDigitVal_digitChar ⟨b.val % 16, by have := b.isLt; omega⟩
  simp only [parsePair, h1, h2]
  exact Fin.ext (by simpa using Nat.div_add_mod b.val 16)

theorem hexToBytesAux_byte (b : Fin 256) (rest : List Char) :
    hexToBytesAux ((byteToHex b).data ++ rest) =
      (hexToBytesAux rest).map (fun bs => b :: bs) := by
  rw [byteToHex_data]
  show (hexToBytesAux rest).map (fun bs => parsePair _ _ :: bs) = _
  rw [parsePair_digitChar]

theorem toHex_data (b : Fin 256) (bs : List (Fin 256)) :
    (toHex (b :: bs)).data = (byteToHex b).data ++ (toHex bs).data := by
  show (byteToHex b ++ toHex bs).data = _
  exact String.data_append _ _

/-- Decoding inverts encoding: `hexToBytes (toHex bs) = some bs`. -/
theorem hexToBytes_toHex (bs : List (Fin 256)) : hexToBytes (toHex bs) = some bs := by
  induction bs with
  | nil => rfl
  | cons b rest ih =>
    show hexToBytesAux (toHex (b :: rest)).data = _
    rw [toHex_data, hexToBytesAux_byte]
    have : hexToBytesAux (toHex rest).data = some rest := ih
    rw [this]
    rfl

theorem bufferFromHexAux_byte (b : Fin 256) (rest : List Char) :
    bufferFromHexAux ((byteToHex b).data ++ rest) = b :: bufferFromHexAux rest := by
  rw [byteToHex_data]
  have h1 := hexDigitVal_digitChar ⟨b.val / 16, by have := b.isLt; omega⟩
  have h2 := hexDigitVal_digitChar ⟨b.val % 16, by have := b.isLt; omega⟩
  show (match hexDigitVal (Nat.digitChar (b.val / 16)),
              hexDigitVal (Nat.digitChar (b.val % 16)) with
        | some h, some l =>
          (⟨16 * h.val + l.val, by have := h.isLt; have := l.isLt; omega⟩ : Fin 256)
            :: bufferFromHexAux rest
        | _, _ => []) = b :: bufferFromHexAux rest
  rw [h1, h2]
  have hval : 16 * (b.val / 16) + b.val % 16 = b.val := Nat.div_add_mod b.val 16
  exact congrArg (fun x => x :: bufferFromHexAux rest) (Fin.ext hval)

/-- Node's hex `Buffer` decoder also inverts `toHex`. -/
theorem bufferFromHex_toHex (bs : List (Fin 256)) : bufferFromHex (toHex bs) = bs := by
  induction bs with
  | nil => rfl
  | cons b rest ih =>
    show bufferFromHexAux (toHex (b :: rest)).data = _
    rw [toHex_data, bufferFromHexAux_byte]
    show b :: bufferFromHex (toHex rest) = b :: rest
    rw [ih]

theorem strip0x_of_ne (s : String) (h : ∀ rest, s.data ≠ '0' :: 'x' :: rest) :
    strip0x s = s := by
  unfold strip0x
  split
  · next heq => exact absurd heq (h _)
  · rfl

/-- Hex output of `toHex` never begins with the prefix `0x` (the second
character is always a hex digit, never `x`), so the server's prefix
stripping leaves it unchanged. -/
theorem strip0x_toHex (bs : List (Fin 256)) : strip0x (toHex bs) = toHex bs := by
  cases bs with
  | nil => rfl
  | cons b rest =>
    apply strip0x_of_ne
    intro tail hcontra
    rw [toHex_data, byteToHex_data] at hcontra
    simp only [List.cons_append, List.nil_append, List.cons.injEq] at hcontra
    exact digitChar_ne_x ⟨b.val % 16, by have := b.isLt; omega⟩ hcontra.2.1

theorem toHex_ne_empty (b : Fin 256) (bs : List (Fin 256)) : toHex (b :: bs) ≠ "" := by
  intro h
  have : (toHex (b :: bs)).data = ("" : String).data := by rw [h]
  rw [toHex_data, byteToHex_data] at this
  exact List.noConfusion this

/-! ### Data model -/

/-- The canonical public Identity: `{ed25519: <hex pub>, x25519: <hex pub>}`
(the object built in `generateKeyPair` and serialized as the `publicKey`
JSON string). -/
structure PublicIdentity where
  ed25519 : String
  x25519 : String
deriving DecidableEq

/-- One keypair as stored in the private-key bundle. -/
structure KeyHalf where
  publicKey : String
  privateKey : String
deriving DecidableEq

/-- The full private bundle stored by `generateKeyPair`
(`{ed25519: {publicKey, privateKey}, x25519: {publicKey, privateKey}}`). -/
structure KeyPairBundle where
  ed25519 : KeyHalf
  x25519 : KeyHalf
deriving DecidableEq

/-- Result of `generateKeyPair`: the `publicKey` JSON string and the parsed
private bundle (the source stores the bundle JSON-serialized; the
serialization is inverted again by every consumer, so we keep the parsed
form). -/
structure GeneratedKeys where
  publicKey : String
  privateKey : KeyPairBundle
deriving DecidableEq

/-- Plaintext payload `{publicKey, message, timestamp}` built by
`encryptMessage`. -/
structure Payload where
  publicKey : String
  message : String
  timestamp : Int
deriving DecidableEq

/-- Envelope produced by `encryptMessage`:
`{encrypted: <hex>, nonce: <hex>, signature: <hex>}`. -/
structure Envelope where
  encrypted : String
  nonce : String
  signature : String
deriving DecidableEq

/-- Envelope as received by `decryptMessage`, where the `nonce` field is
optional (`nonce?: string` in the source type). -/
structure WireEnvelope where
  encrypted : String
  nonce : Option String
  signature : String
deriving DecidableEq

/-- A JSON-decoded `encryptedMessage` object on the server, before field
presence is checked; every field may be absent. -/
structure JsonEnvelope where
  encrypted : Option String
  nonce : Option String
  signature : Option String
deriving DecidableEq

/-- Return value of `decryptMessage`. -/
structure DecryptedMessage where
  senderPublicKey : String
  message : String
  timestamp : Int
deriving DecidableEq

/-- External library primitives used by the repository, with their standard
correctness laws: Ed25519 (`@noble/curves`, `tweetnacl`), X25519 ECDH,
ChaCha20-Poly1305 (`@noble/ciphers`), SHA-256 (`expo-crypto`), UTF-8
encoding (`TextEncoder`/`TextDecoder`, `Buffer.from(_, 'utf8')`), and the
JSON codecs for the three fixed record shapes. `chachaDec` returns `none`
for an authentication-tag mismatch (the library throws there). -/
structure CryptoPrims where
  edPub : List (Fin 256) → List (Fin 256)
  edSign : List (Fin 256) → List (Fin 256) → List (Fin 256)
  edVerify : List (Fin 256) → List (Fin 256) → List (Fin 256) → Bool
  xPub : List (Fin 256) → List (Fin 256)
  xShared : List (Fin 256) → List (Fin 256) → List (Fin 256)
  chachaEnc : List (Fin 256) → List (Fin 256) → List (Fin 256) → List (Fin 256)
  chachaDec : List (Fin 256) → List (Fin 256) → List (Fin 256) → Option (List (Fin 256))
  sha256 : List (Fin 256) → List (Fin 256)
  utf8Enc : String → List (Fin 256)
  utf8Dec : List (Fin 256) → String
  jsonEncId : PublicIdentity → String
  jsonDecId : String → Option PublicIdentity
  jsonEncPayload : Payload → String
  jsonDecPayload : String → Option Payload
  jsonEncEnv : JsonEnvelope → String
  jsonDecEnv : String → Option JsonEnvelope
  verify_sign : ∀ msg sk, edVerify (edSign msg sk) msg (edPub sk) = true
  dh_comm : ∀ a b, xShared a (xPub b) = xShared b (xPub a)
  aead_roundtrip : ∀ k n m, chachaDec k n (chachaEnc k n m) = some m
  utf8_roundtrip : ∀ s, utf8Dec (utf8Enc s) = s
  id_roundtrip : ∀ i, jsonDecId (jsonEncId i) = some i
  payload_roundtrip : ∀ p, jsonDecPayload (jsonEncPayload p) = some p
  env_roundtrip : ∀ e, jsonDecEnv (jsonEncEnv e) = some e

/-! ### Client-side functions (`utils/keys.ts`) -/

/-- `generateKeyPair` (utils/keys.ts lines 67-103), with the random
32-byte seed passed explicitly.  The Ed25519 private key and the X25519
private key are both set to the seed itself; the public identity is the
JSON serialization of the two hex public keys. -/
def generateKeyPair (C : CryptoPrims) (seed : List (Fin 256)) : GeneratedKeys :=
  let ed25519PrivateKey := seed
  let ed25519PublicKey := C.edPub ed25519PrivateKey
  let x25519PrivateKey := seed
  let x25519PublicKey := C.xPub x25519PrivateKey
  let keyPair : KeyPairBundle :=
    { ed25519 := { publicKey := toHex ed25519PublicKey, privateKey := toHex ed25519PrivateKey }
      x25519 := { publicKey := toHex x25519PublicKey, privateKey := toHex x25519PrivateKey } }
  { publicKey := C.jsonEncId { ed25519 := keyPair.ed25519.publicKey
                               x25519 := keyPair.x25519.publicKey }
    privateKey := keyPair }

/-- `generateConversationId` (utils/keys.ts lines 31-51): parse both
public-key JSON strings, sort the two Ed25519 hex keys (JavaScript default
array sort = lexicographic string order), concatenate, SHA-256, hex.
A JSON parse failure throws, embedded as `none`. -/
def generateConversationId (C : CryptoPrims) (publicKey1 publicKey2 : String) :
    Option String :=
  match C.jsonDecId publicKey1, C.jsonDecId publicKey2 with
  | some key1Data, some key2Data =>
    let sorted :=
      if key1Data.ed25519 < key2Data.ed25519 then (key1Data.ed25519, key2Data.ed25519)
      else (key2Data.ed25519, key1Data.ed25519)
    let combined := sorted.1 ++ sorted.2
    some (toHex (C.sha256 (C.utf8Enc combined)))
  | _, _ => none

/-- `signMessage` (utils/keys.ts lines 157-177), with the stored key bundle
passed explicitly: sign the UTF-8 bytes of `message` with the Ed25519
private key and return the hex signature. -/
def signMessage (C : CryptoPrims) (keys : KeyPairBundle) (message : String) :
    Option String :=
  match hexToBytes keys.ed25519.privateKey with
  | some ed25519PrivateKeyBytes =>
    some (toHex (C.edSign (C.utf8Enc message) ed25519PrivateKeyBytes))
  | none => none

/-- `encryptMessage` (utils/keys.ts lines 185-243), with the stored keys,
the clock and the random 12-byte nonce passed explicitly.  Returns the
`{destination, message}` pair, the message being the
`{encrypted, nonce, signature}` envelope (serialized as JSON in the
source). -/
def encryptMessage (C : CryptoPrims) (senderPublicKey : String)
    (keys : KeyPairBundle) (nonce : List (Fin 256)) (now : Int)
    (message recipientPublicKey : String) : Option (String × Envelope) :=
  let payload : Payload := { publicKey := senderPublicKey, message := message, timestamp := now }
  let payloadString := C.jsonEncPayload payload
  match C.jsonDecId recipientPublicKey with
  | none => none
  | some recipientPublicKeyData =>
    match hexToBytes keys.x25519.privateKey, hexToBytes recipientPublicKeyData.x25519 with
    | some x25519PrivateKeyBytes, some recipientX25519PublicKeyBytes =>
      let sharedSecret := C.xShared x25519PrivateKeyBytes recipientX25519PublicKeyBytes
      let payloadBytes := C.utf8Enc payloadString
      let encrypted := C.chachaEnc sharedSecret nonce payloadBytes
      let encryptedHex := toHex encrypted
      let nonceHex := toHex nonce
      match hexToBytes keys.ed25519.privateKey with
      | some ed25519PrivateKeyBytes =>
        let signature := C.edSign encrypted ed25519PrivateKeyBytes
        some (recipientPublicKey,
              { encrypted := encryptedHex, nonce := nonceHex, signature := toHex signature })
      | none => none
    | _, _ => none

/-- View an outgoing envelope as the incoming wire form. -/
def Envelope.toWire (e : Envelope) : WireEnvelope :=
  { encrypted := e.encrypted, nonce := some e.nonce, signature := e.signature }

/-- `decryptMessage` (utils/keys.ts lines 320-382), with the stored key
bundle passed explicitly.  Embeds the whole body including the enclosing
`try/catch` that turns every thrown exception into `null` (`none`).
Note the embedded source behaviour on an invalid envelope signature: the
result of `ed25519.verify` is bound to `isValid` and merely logged when
false; execution continues into decryption regardless. -/
def decryptMessage (C : CryptoPrims) (keys : KeyPairBundle) (origin : String)
    (encryptedMessage : WireEnvelope) : Option DecryptedMessage :=
  match encryptedMessage.nonce with
  | none => none
  | some nonce =>
    if nonce = "" then none
    else
      match C.jsonDecId origin with
      | none => none
      | some senderPublicKeyData =>
        match hexToBytes senderPublicKeyData.ed25519,
              hexToBytes encryptedMessage.signature,
              hexToBytes encryptedMessage.encrypted with
        | some senderEd25519PublicKeyBytes, some signatureBytes, some encryptedBytes =>
          let isValid := C.edVerify signatureBytes encryptedBytes senderEd25519PublicKeyBytes
          -- source: `if (!isValid) { console.error(...) }` — no early return
          let _ := isValid
          match hexToBytes keys.x25519.privateKey, hexToBytes senderPublicKeyData.x25519 with
          | some x25519PrivateKeyBytes, some senderX25519PublicKeyBytes =>
            let sharedSecret := C.xShared x25519PrivateKeyBytes senderX25519PublicKeyBytes
            match hexToBytes nonce with
            | some nonceBytes =>
              match C.chachaDec sharedSecret nonceBytes encryptedBytes with
              | some decryptedBytes =>
                let decrypted := C.utf8Dec decryptedBytes
                match C.jsonDecPayload decrypted with
                | some payload =>
                  some { senderPublicKey := payload.publicKey
                         message := payload.message
                         timestamp := payload.timestamp }
                | none => none
              | none => none
            | none => none
          | _, _ => none
        | _, _, _ => none

/-- `sendMessage` in `hooks/useBackend.tsx` (lines 157-172): the byte
sequence the client signs, built as the template literal
`${timestamp}${payload.destination}${payload.encryptedMessage}`. -/
def clientMessageToSign (timestamp : Int) (destination encryptedMessage : String) : String :=
  toString timestamp ++ destination ++ encryptedMessage

/-! ### Server-side functions (`src/server.js`) -/

/-- Truthiness of an optional JS string field: absent or `""` is falsy. -/
def strFalsy : Option String → Bool
  | none => true
  | some s => s = ""

/-- Truthiness of an optional JS number field: absent or `0` is falsy. -/
def intFalsy : Option Int → Bool
  | none => true
  | some n => n = 0

/-- `/^[a-f0-9]+$/i.test s` restricted to one character (shared by the
validators below).  `hexDigitVal` accepts exactly `[a-f0-9A-F]`. -/
def isHexChar (c : Char) : Bool :=
  (hexDigitVal c).isSome

/-- `/^[a-f0-9]{128}$/i.test signature` from the `/send` handler. -/
def isHex128 (s : String) : Bool :=
  s.length = 128 && s.data.all isHexChar

/-- `/^(0x)?[a-f0-9]{64}$/i.test k` from `isValidKeyObject`. -/
def isHex64opt (s : String) : Bool :=
  match s.data with
  | '0' :: 'x' :: rest => rest.length = 64 && rest.all isHexChar
  | l => l.length = 64 && l.all isHexChar

/-- `isValidKeyObject` (src/server.js lines 61-74): a JSON string of at most
500 characters that parses to an object with `ed25519` and `x25519` fields,
each an optionally `0x`-prefixed 64-hex-char string.  A parse failure, a
missing field or an empty field all yield `false` (an empty or missing
field also fails the hex test, so `jsonDecId = none` covers them). -/
def isValidKeyObject (C : CryptoPrims) (keyObj : String) : Bool :=
  if keyObj.length > 500 then false
  else
    match C.jsonDecId keyObj with
    | none => false
    | some parsed => isHex64opt parsed.ed25519 && isHex64opt parsed.x25519

/-- One required hex field of `isValidEncryptedMessage`: present, truthy and
matching `/^[a-f0-9]+$/i` (which also requires at least one character). -/
def envFieldOk : Option String → Bool
  | none => false
  | some s => s ≠ "" && s.data.all isHexChar

/-- `isValidEncryptedMessage` (src/server.js lines 82-95). -/
def isValidEncryptedMessage (C : CryptoPrims) (msg : String) : Bool :=
  if msg.length > 5000 then false
  else
    match C.jsonDecEnv msg with
    | none => false
    | some parsed =>
      envFieldOk parsed.encrypted && envFieldOk parsed.signature && envFieldOk parsed.nonce

/-- The byte sequence the server reconstructs in `verifyRequestSignature`
(src/server.js line 107): `` `${timestamp}${destination}${encryptedMessage}` ``. -/
def serverSignedMessage (timestamp : Int) (destination encryptedMessage : String) : String :=
  toString timestamp ++ destination ++ encryptedMessage

/-- `verifyRequestSignature` (src/server.js lines 97-128), with the server
clock `now` and `TIMESTAMP_TOLERANCE` passed explicitly.  Any exception
(here: a JSON parse failure on `origin`) is caught and turned into
`false`. -/
def verifyRequestSignature (C : CryptoPrims) (tolerance : Nat) (now : Int)
    (origin : String) (timestamp : Int) (destination encryptedMessage signature : String) :
    Bool :=
  if (now - timestamp).natAbs > tolerance then false
  else
    let message := serverSignedMessage timestamp destination encryptedMessage
    let messageBytes := C.utf8Enc message
    let signatureBytes := bufferFromHex signature
    match C.jsonDecId origin with
    | none => false
    | some originKeys =>
      let publicKeyHex := strip0x originKeys.ed25519
      let publicKey := bufferFromHex publicKeyHex
      C.edVerify signatureBytes messageBytes publicKey

/-- `TIMESTAMP_TOLERANCE` (src/server.js line 47): 5 minutes in
milliseconds, the default when the environment supplies none. -/
def TIMESTAMP_TOLERANCE : Nat := 300000

/-- Body of a `/send` request; every field is optional at the JSON level. -/
structure SendRequest where
  encryptedMessage : Option String
  destination : Option String
  origin : Option String
  timestamp : Option Int
  signature : Option String
deriving DecidableEq

/-- The distinct observable responses of the `/send` handler, in source
order.  `unauthorized` is the single 401 response
`'Unauthorized: Invalid or expired signature'` used for missing origin,
expired timestamp and invalid signature alike. -/
inductive SendResponse where
  | missingFields
  | invalidTimestamp
  | invalidSignatureFormat
  | invalidDestination
  | invalidOrigin
  | invalidEncryptedMessage
  | unauthorized
  | recipientNotFound
  | ok (expoPushToken : String)
deriving DecidableEq

/-- A row of the `recipients` table (src/db.js): `recipient_id` is UNIQUE,
`expo_push_token` the delivery token, `updated_at` the last-seen
timestamp. -/
structure RecipientRec where
  recipient_id : String
  expo_push_token : String
  updated_at : Int
deriving DecidableEq

/-- `SELECT expo_push_token FROM recipients WHERE recipient_id = ?`
(the `/send` handler's lookup). -/
def lookup (db : List RecipientRec) (id : String) : Option RecipientRec :=
  db.find? (fun r => r.recipient_id = id)

/-- The `/register` handler's statement
`INSERT ... ON CONFLICT(recipient_id) DO UPDATE SET expo_push_token = ?,
updated_at = CURRENT_TIMESTAMP` on a table whose `recipient_id` column is
UNIQUE: update the existing row if present, else append a new row. -/
def upsert : List RecipientRec → String → String → Int → List RecipientRec
  | [], id, token, now => [{ recipient_id := id, expo_push_token := token, updated_at := now }]
  | r :: rest, id, token, now =>
    if r.recipient_id = id then
      { recipient_id := r.recipient_id, expo_push_token := token, updated_at := now } :: rest
    else
      r :: upsert rest id token now

/-- The `/send` handler (src/server.js lines 252-359): shape validation in
source order, then authentication, then directory lookup, then forwarding
(the delivery call is represented by the `ok` response carrying the token
it is addressed to). -/
def sendHandler (C : CryptoPrims) (db : List RecipientRec) (now : Int)
    (tolerance : Nat) (req : SendRequest) : SendResponse :=
  if strFalsy req.encryptedMessage || strFalsy req.destination ||
     intFalsy req.timestamp || strFalsy req.signature then
    .missingFields
  else
    let encryptedMessage := req.encryptedMessage.getD ""
    let destination := req.destination.getD ""
    let timestamp := req.timestamp.getD 0
    let signature := req.signature.getD ""
    if timestamp ≤ 0 then .invalidTimestamp
    else if !isHex128 signature then .invalidSignatureFormat
    else if !isValidKeyObject C destination then .invalidDestination
    else if (match req.origin with
             | some o => o ≠ "" && !isValidKeyObject C o
             | none => false) then .invalidOrigin
    else if !isValidEncryptedMessage C encryptedMessage then .invalidEncryptedMessage
    else if (match req.origin with
             | none => true
             | some o =>
               o = "" ||
               !verifyRequestSignature C tolerance now o timestamp destination
                 encryptedMessage signature) then .unauthorized
    else
      match lookup db destination with
      | none => .recipientNotFound
      | some recipient => .ok recipient.expo_push_token

/-! ### An executable instance of the library primitives

Injective, easily invertible stand-ins for the external libraries, used to
evaluate every theorem on concrete inputs.  They satisfy exactly the laws
recorded in `CryptoPrims`. -/

/-- Count a leading run of `'a'` characters (helper of the toy codecs). -/
def takeCount : List Char → Nat × List Char
  | [] => (0, [])
  | c :: rest =>
    if c = 'a' then
      let p := takeCount rest
      (p.1 + 1, p.2)
    else (0, c :: rest)

/-- Length-prefixed field: unary length in `'a'`s, a `'b'` marker, then the
raw characters. -/
def encField (s : String) : List Char :=
  List.replicate s.length 'a' ++ 'b' :: s.data

/-- Inverse of `encField`, returning the field and the remaining input. -/
def decField (l : List Char) : Option (String × List Char) :=
  let p := takeCount l
  match p.2 with
  | c :: r2 => if c = 'b' then some (String.mk (r2.take p.1), r2.drop p.1) else none
  | [] => none

theorem takeCount_replicate_cons (n : Nat) (r : List Char) :
    takeCount (List.replicate n 'a' ++ 'b' :: r) = (n, 'b' :: r) := by
  induction n with
  | zero => simp [takeCount]
  | succ k ih => simp [List.replicate_succ, takeCount, ih]

theorem takeCount_replicate (n : Nat) :
    takeCount (List.replicate n 'a') = (n, []) := by
  induction n with
  | zero => rfl
  | succ k ih => simp [List.replicate_succ, takeCount, ih]

theorem stringMk_data (s : String) : String.mk s.data = s := String.ext rfl

theorem decField_encField (s : String) (r : List Char) :
    decField (encField s ++ r) = some (s, r) := by
  have harr : encField s ++ r = List.replicate s.length 'a' ++ 'b' :: (s.data ++ r) := by
    simp [encField]
  rw [harr]
  have hlen : s.data.length = s.length := rfl
  simp [decField, takeCount_replicate_cons, List.take_left' hlen, List.drop_left' hlen,
        stringMk_data]

/-- Toy identity codec (stand-in for `JSON.stringify`/`JSON.parse` of
`{ed25519, x25519}`). -/
def toyEncId (i : PublicIdentity) : String :=
  String.mk (encField i.ed25519 ++ encField i.x25519)

def toyDecId (s : String) : Option PublicIdentity :=
  match decField s.data with
  | some (ed, r1) =>
    (match decField r1 with
     | some (x, _) => some { ed25519 := ed, x25519 := x }
     | none => none)
  | none => none

theorem toyDecId_toyEncId (i : PublicIdentity) : toyDecId (toyEncId i) = some i := by
  have h2 : decField (encField i.x25519) = some (i.x25519, []) := by
    have := decField_encField i.x25519 []
    simpa using this
  simp [toyDecId, toyEncId, decField_encField, h2]

/-- Unary-encoded integer used as the final field of the toy payload
codec. -/
def encIntTail (i : Int) : List Char :=
  (if i < 0 then '-' else '+') :: List.replicate i.natAbs 'a'

/-- Toy payload codec (stand-in for `JSON.stringify`/`JSON.parse` of
`{publicKey, message, timestamp}`). -/
def toyEncPayload (p : Payload) : String :=
  String.mk (encField p.publicKey ++ encField p.message ++ encIntTail p.timestamp)

def toyDecPayload (s : String) : Option Payload :=
  match decField s.data with
  | some (pk, r1) =>
    (match decField r1 with
     | some (msg, r2) =>
       (match r2 with
        | c :: rest =>
          let p := takeCount rest
          if p.2 = [] then
            some { publicKey := pk, message := msg,
                   timestamp := if c = '-' then -(p.1 : Int) else (p.1 : Int) }
          else none
        | [] => none)
     | none => none)
  | none => none

theorem toyDecPayload_toyEncPayload (p : Payload) :
    toyDecPayload (toyEncPayload p) = some p := by
  have hassoc : (encField p.publicKey ++ encField p.message ++ encIntTail p.timestamp) =
      encField p.publicKey ++ (encField p.message ++ encIntTail p.timestamp) := by
    simp [List.append_assoc]
  by_cases hneg : p.timestamp < 0
  · simp [toyDecPayload, toyEncPayload, hassoc, decField_encField, encIntTail, hneg,
          takeCount_replicate]
    have ht : -|p.timestamp| = p.timestamp := by
      rw [abs_of_neg hneg]; ring
    rw [ht]
  · simp [toyDecPayload, toyEncPayload, hassoc, decField_encField, encIntTail, hneg,
          takeCount_replicate]
    have ht : |p.timestamp| = p.timestamp := abs_of_nonneg (by omega)
    rw [ht]

/-- Toy optional-field codec for the envelope JSON. -/
def encOptField : Option String → List Char
  | none => ['n']
  | some s => 'v' :: encField s

def decOptField (l : List Char) : Option (Option String × List Char) :=
  match l with
  | c :: r =>
    if c = 'n' then some (none, r)
    else if c = 'v' then (decField r).map (fun p => (some p.1, p.2))
    else none
  | [] => none

theorem decOptField_encOptField (o : Option String) (r : List Char) :
    decOptField (encOptField o ++ r) = some (o, r) := by
  cases o with
  | none => simp [encOptField, decOptField]
  | some s => simp [encOptField, decOptField, decField_encField]

/-- Toy envelope codec (stand-in for `JSON.stringify`/`JSON.parse` of
`{encrypted, nonce, signature}`). -/
def toyEncEnv (e : JsonEnvelope) : String :=
  String.mk (encOptField e.encrypted ++ encOptField e.nonce ++ encOptField e.signature)

def toyDecEnv (s : String) : Option JsonEnvelope :=
  match decOptField s.data with
  | some (enc, r1) =>
    (match decOptField r1 with
     | some (non, r2) =>
       (match decOptField r2 with
        | some (sig, _) => some { encrypted := enc, nonce := non, signature := sig }
        | none => none)
     | none => none)
  | none => none

theorem toyDecEnv_toyEncEnv (e : JsonEnvelope) : toyDecEnv (toyEncEnv e) = some e := by
  have h3 : decOptField (encOptField e.signature) = some (e.signature, []) := by
    have := decOptField_encOptField e.signature []
    simpa using this
  have hassoc : (encOptField e.encrypted ++ encOptField e.nonce ++ encOptField e.signature) =
      encOptField e.encrypted ++ (encOptField e.nonce ++ encOptField e.signature) := by
    simp [List.append_assoc]
  simp [toyDecEnv, toyEncEnv, hassoc, decOptField_encOptField, h3]

/-- Byte from a Nat, reducing modulo 256. -/
def mkByte (x : Nat) : Fin 256 :=
  ⟨x % 256, Nat.mod_lt x (by omega)⟩

/-- Toy text encoder (stand-in for `TextEncoder`): three little-endian
bytes per character, enough for any Unicode scalar value (< 2^21). -/
def toyEncodeAux : List Char → List (Fin 256)
  | [] => []
  | c :: cs =>
    mkByte c.toNat :: mkByte (c.toNat / 256) :: mkByte (c.toNat / 65536) :: toyEncodeAux cs

def toyEncode (s : String) : List (Fin 256) :=
  toyEncodeAux s.data

def toyDecodeAux : List (Fin 256) → List Char
  | b0 :: b1 :: b2 :: rest =>
    Char.ofNat (b0.val + 256 * b1.val + 65536 * b2.val) :: toyDecodeAux rest
  | _ => []

def toyDecode (bs : List (Fin 256)) : String :=
  String.mk (toyDecodeAux bs)

theorem char_toNat_lt (c : Char) : c.toNat < 1114112 := by
  rcases c.valid with h | ⟨_, h2⟩
  · exact Nat.lt_trans h (by omega)
  · exact h2

theorem toyDecodeAux_toyEncodeAux (l : List Char) : toyDecodeAux (toyEncodeAux l) = l := by
  induction l with
  | nil => rfl
  | cons c cs ih =>
    show Char.ofNat ((mkByte c.toNat).val + 256 * (mkByte (c.toNat / 256)).val +
        65536 * (mkByte (c.toNat / 65536)).val) :: toyDecodeAux (toyEncodeAux cs) = c :: cs
    rw [ih]
    have hlt := char_toNat_lt c
    have hval : (mkByte c.toNat).val + 256 * (mkByte (c.toNat / 256)).val +
        65536 * (mkByte (c.toNat / 65536)).val = c.toNat := by
      show c.toNat % 256 + 256 * (c.toNat / 256 % 256) + 65536 * (c.toNat / 65536 % 256) =
        c.toNat
      omega
    rw [hval, Char.ofNat_toNat]

theorem toyDecode_toyEncode (s : String) : toyDecode (toyEncode s) = s := by
  show String.mk (toyDecodeAux (toyEncodeAux s.data)) = s
  rw [toyDecodeAux_toyEncodeAux, stringMk_data]

/-- Sum of the byte values (commutative fingerprint used by the toy
primitives). -/
def sumBytes (l : List (Fin 256)) : Nat :=
  l.foldr (fun b acc => b.val + acc) 0

/-- Toy AEAD authentication tag over key, nonce and plaintext. -/
def toyTag (k n m : List (Fin 256)) : Fin 256 :=
  mkByte (sumBytes k + sumBytes n + sumBytes m)

/-- The executable instance of the library primitives.  Public keys equal
secret keys, a signature is the signer's key followed by the message, the
DH shared secret is the order-insensitive byte-sum fingerprint of the two
inputs, and the AEAD appends `toyTag` and checks it on decryption. -/
def toyCrypto : CryptoPrims where
  edPub := fun sk => sk
  edSign := fun msg sk => sk ++ msg
  edVerify := fun sig msg pk => sig == pk ++ msg
  xPub := fun sk => sk
  xShared := fun a b => [mkByte (sumBytes a + sumBytes b)]
  chachaEnc := fun k n m => m ++ [toyTag k n m]
  chachaDec := fun k n c =>
    match c.getLast? with
    | some t => if t = toyTag k n c.dropLast then some c.dropLast else none
    | none => none
  sha256 := fun bs => [mkByte (sumBytes bs)]
  utf8Enc := toyEncode
  utf8Dec := toyDecode
  jsonEncId := toyEncId
  jsonDecId := toyDecId
  jsonEncPayload := toyEncPayload
  jsonDecPayload := toyDecPayload
  jsonEncEnv := toyEncEnv
  jsonDecEnv := toyDecEnv
  verify_sign := by intro msg sk; simp
  dh_comm := by
    intro a b
    show [mkByte (sumBytes a + sumBytes b)] = [mkByte (sumBytes b + sumBytes a)]
    rw [Nat.add_comm]
  aead_roundtrip := by
    intro k n m
    simp [List.getLast?_concat, List.dropLast_concat]
  utf8_roundtrip := toyDecode_toyEncode
  id_roundtrip := toyDecId_toyEncId
  payload_roundtrip := toyDecPayload_toyEncPayload
  env_roundtrip := toyDecEnv_toyEncEnv

/-! ### Claim C9 -/

/-- C9: for every generated keypair bundle, the Ed25519 signing private key
and the X25519 agreement private key are the identical value — both are the
hex encoding of the raw 32-byte seed — so the stored secret material
contains the same secret bytes under both roles. -/
theorem generateKeyPair_shares_seed (C : CryptoPrims) (seed : List (Fin 256)) :
    (generateKeyPair C seed).privateKey.ed25519.privateKey =
      (generateKeyPair C seed).privateKey.x25519.privateKey ∧
    (generateKeyPair C seed).privateKey.ed25519.privateKey = toHex seed :=
  ⟨rfl, rfl⟩

/-! ### Claim C3 -/

/-- C3: deriving the conversation identifier is symmetric in its two
arguments: `generateConversationId A B = generateConversationId B A`,
byte for byte, for every pair of identity strings and every choice of the
hash and JSON primitives. -/
theorem generateConversationId_symm (C : CryptoPrims) (publicKey1 publicKey2 : String) :
    generateConversationId C publicKey1 publicKey2 =
      generateConversationId C publicKey2 publicKey1 := by
  unfold generateConversationId
  cases h1 : C.jsonDecId publicKey1 <;> cases h2 : C.jsonDecId publicKey2 <;> try rfl
  next a b =>
    show some (toHex (C.sha256 (C.utf8Enc _))) = some (toHex (C.sha256 (C.utf8Enc _)))
    by_cases hab : a.ed25519 < b.ed25519
    · have hba : ¬b.ed25519 < a.ed25519 := lt_asymm hab
      rw [if_pos hab, if_neg hba]
    · by_cases hba : b.ed25519 < a.ed25519
      · rw [if_neg hab, if_pos hba]
      · have heq : a.ed25519 = b.ed25519 := le_antisymm (not_lt.mp hba) (not_lt.mp hab)
        rw [if_neg hab, if_neg hba, heq]

/-! ### Claim C8 -/

/-- `lookup` after `upsert` of the same identity always finds the freshly
written token and timestamp. -/
theorem lookup_upsert (db : List RecipientRec) (id token : String) (now : Int) :
    lookup (upsert db id token now) id =
      some { recipient_id := id, expo_push_token := token, updated_at := now } := by
  induction db with
  | nil => simp [upsert, lookup, List.find?]
  | cons r rest ih =>
    by_cases h : r.recipient_id = id
    · simp [upsert, h, lookup, List.find?]
    · simp only [upsert, h, if_false]
      simpa [lookup, List.find?, h] using ih

/-- C8: the registration upsert is idempotent and last-write-wins: after
`upsert i t1` then `upsert i t2`, `lookup i` returns `t2` with the second
write's timestamp; repeating `upsert i t2` leaves the stored token
unchanged (only `updated_at` moves forward). -/
theorem upsert_last_write_wins (db : List RecipientRec) (i t1 t2 : String)
    (n1 n2 n3 : Int) :
    lookup (upsert (upsert db i t1 n1) i t2 n2) i =
      some { recipient_id := i, expo_push_token := t2, updated_at := n2 } ∧
    lookup (upsert (upsert (upsert db i t1 n1) i t2 n2) i t2 n3) i =
      some { recipient_id := i, expo_push_token := t2, updated_at := n3 } :=
  ⟨lookup_upsert _ _ _ _, lookup_upsert _ _ _ _⟩

/-! ### Claims C4 and C5 -/

/-- Core fact shared by the request-authentication claims: a request
signature produced by `signMessage` over `clientMessageToSign` verifies in
`verifyRequestSignature` whenever the timestamp is within the tolerance
window. -/
theorem verify_of_signed (C : CryptoPrims) (seed : List (Fin 256)) (timestamp : Int)
    (destination encryptedMessage : String) (now : Int) (tolerance : Nat) (sig : String)
    (hwin : (now - timestamp).natAbs ≤ tolerance)
    (hsig : signMessage C (generateKeyPair C seed).privateKey
        (clientMessageToSign timestamp destination encryptedMessage) = some sig) :
    verifyRequestSignature C tolerance now (generateKeyPair C seed).publicKey
      timestamp destination encryptedMessage sig = true := by
  have hsk : hexToBytes (generateKeyPair C seed).privateKey.ed25519.privateKey = some seed :=
    hexToBytes_toHex seed
  unfold signMessage at hsig
  rw [hsk] at hsig
  have hsigval : toHex (C.edSign
      (C.utf8Enc (clientMessageToSign timestamp destination encryptedMessage)) seed) = sig := by
    injection hsig
  have hid : C.jsonDecId (generateKeyPair C seed).publicKey =
      some { ed25519 := toHex (C.edPub seed), x25519 := toHex (C.xPub seed) } :=
    C.id_roundtrip _
  unfold verifyRequestSignature
  rw [if_neg (by omega)]
  rw [hid]
  show C.edVerify (bufferFromHex sig)
      (C.utf8Enc (serverSignedMessage timestamp destination encryptedMessage))
      (bufferFromHex (strip0x (toHex (C.edPub seed)))) = true
  rw [← hsigval, strip0x_toHex, bufferFromHex_toHex, bufferFromHex_toHex]
  exact C.verify_sign _ _

/-- C4: the byte sequence the client signs (decimal timestamp, destination,
envelope, no separators) is exactly the byte sequence the server
reconstructs, and consequently every client-signed request verifies on the
server under the origin's signing public key within the timestamp
window. -/
theorem client_server_sign_agree (C : CryptoPrims) (seed : List (Fin 256)) (timestamp : Int)
    (destination encryptedMessage : String) (now : Int) (tolerance : Nat) (sig : String)
    (hwin : (now - timestamp).natAbs ≤ tolerance)
    (hsig : signMessage C (generateKeyPair C seed).privateKey
        (clientMessageToSign timestamp destination encryptedMessage) = some sig) :
    clientMessageToSign timestamp destination encryptedMessage =
      serverSignedMessage timestamp destination encryptedMessage ∧
    verifyRequestSignature C tolerance now (generateKeyPair C seed).publicKey
      timestamp destination encryptedMessage sig = true :=
  ⟨rfl, verify_of_signed C seed timestamp destination encryptedMessage now tolerance sig
    hwin hsig⟩

theorem client_server_sign_agree_witness :
    clientMessageToSign 5 "d" "e" = serverSignedMessage 5 "d" "e" ∧
    verifyRequestSignature toyCrypto 2 6 (generateKeyPair toyCrypto [(1 : Fin 256)]).publicKey
      5 "d" "e"
      (toHex (toyCrypto.edSign (toyCrypto.utf8Enc (clientMessageToSign 5 "d" "e"))
        [(1 : Fin 256)])) = true :=
  client_server_sign_agree toyCrypto [(1 : Fin 256)] 5 "d" "e" 6 2
    (toHex (toyCrypto.edSign (toyCrypto.utf8Enc (clientMessageToSign 5 "d" "e"))
      [(1 : Fin 256)]))
    (by decide) (by rfl)

/-- C5: a relay request is rejected for timestamp reasons exactly when
`|now - timestamp|` exceeds the tolerance: any out-of-window clock makes
`verifyRequestSignature` return `false` outright, while a validly signed
request is accepted at `T + tolerance - 1` and rejected at
`T + tolerance + 1`. -/
theorem timestamp_window (C : CryptoPrims) (seed : List (Fin 256)) (t : Int)
    (tolerance : Nat) (destination encryptedMessage sig : String)
    (htol : 1 ≤ tolerance)
    (hsig : signMessage C (generateKeyPair C seed).privateKey
        (clientMessageToSign t destination encryptedMessage) = some sig) :
    (∀ now : Int, (now - t).natAbs > tolerance →
      verifyRequestSignature C tolerance now (generateKeyPair C seed).publicKey
        t destination encryptedMessage sig = false) ∧
    verifyRequestSignature C tolerance (t + tolerance - 1) (generateKeyPair C seed).publicKey
      t destination encryptedMessage sig = true ∧
    verifyRequestSignature C tolerance (t + tolerance + 1) (generateKeyPair C seed).publicKey
      t destination encryptedMessage sig = false := by
  refine ⟨?_, ?_, ?_⟩
  · intro now h
    unfold verifyRequestSignature
    rw [if_pos h]
  · exact verify_of_signed C seed t destination encryptedMessage
      (t + tolerance - 1) tolerance sig (by omega) hsig
  · unfold verifyRequestSignature
    rw [if_pos (by omega)]

theorem timestamp_window_witness :
    verifyRequestSignature toyCrypto TIMESTAMP_TOLERANCE (5 + TIMESTAMP_TOLERANCE - 1)
      (generateKeyPair toyCrypto [(1 : Fin 256)]).publicKey 5 "d" "e"
      (toHex (toyCrypto.edSign (toyCrypto.utf8Enc (clientMessageToSign 5 "d" "e"))
        [(1 : Fin 256)])) = true :=
  (timestamp_window toyCrypto [(1 : Fin 256)] 5 TIMESTAMP_TOLERANCE "d" "e"
    (toHex (toyCrypto.edSign (toyCrypto.utf8Enc (clientMessageToSign 5 "d" "e"))
      [(1 : Fin 256)]))
    (by decide) (by rfl)).2.1

/-! ### Claim C1 -/

/-- C1: for every plaintext `m` and every pair of generated keypairs `A`
and `B`, decrypting with `B`'s secret material the envelope produced by
encrypting `m` from `A` to `B` recovers exactly `m`, and the recovered
sender identity equals `A`'s public identity string.  (The nonce is the
fresh 12-byte random value drawn inside `encryptMessage`; any nonempty
nonce works.) -/
theorem encrypt_decrypt_roundtrip (C : CryptoPrims) (seedA seedB nonce : List (Fin 256))
    (now : Int) (m : String) (dest : String) (env : Envelope)
    (hnonce : nonce ≠ [])
    (henc : encryptMessage C (generateKeyPair C seedA).publicKey
        (generateKeyPair C seedA).privateKey nonce now m
        (generateKeyPair C seedB).publicKey = some (dest, env)) :
    decryptMessage C (generateKeyPair C seedB).privateKey
      (generateKeyPair C seedA).publicKey env.toWire =
      some { senderPublicKey := (generateKeyPair C seedA).publicKey
             message := m
             timestamp := now } := by
  have hidB : C.jsonDecId (generateKeyPair C seedB).publicKey =
      some { ed25519 := toHex (C.edPub seedB), x25519 := toHex (C.xPub seedB) } :=
    C.id_roundtrip _
  have hidA : C.jsonDecId (generateKeyPair C seedA).publicKey =
      some { ed25519 := toHex (C.edPub seedA), x25519 := toHex (C.xPub seedA) } :=
    C.id_roundtrip _
  have hxA : hexToBytes (generateKeyPair C seedA).privateKey.x25519.privateKey = some seedA :=
    hexToBytes_toHex seedA
  have hedA : hexToBytes (generateKeyPair C seedA).privateKey.ed25519.privateKey = some seedA :=
    hexToBytes_toHex seedA
  have hxB : hexToBytes (generateKeyPair C seedB).privateKey.x25519.privateKey = some seedB :=
    hexToBytes_toHex seedB
  simp only [encryptMessage, hidB, hxA, hedA, hexToBytes_toHex, Option.some.injEq,
    Prod.mk.injEq] at henc
  obtain ⟨-, henv⟩ := henc
  subst henv
  have hne : toHex nonce ≠ "" := by
    cases nonce with
    | nil => exact absurd rfl hnonce
    | cons b bs => exact toHex_ne_empty b bs
  have hshared : C.xShared seedB (C.xPub seedA) = C.xShared seedA (C.xPub seedB) :=
    C.dh_comm seedB seedA
  simp only [decryptMessage, Envelope.toWire, hidA, hxB, hexToBytes_toHex, hne,
    if_neg hne, hshared, C.aead_roundtrip, C.utf8_roundtrip, C.payload_roundtrip]
  simp

/-- Concrete envelope for evaluating the roundtrip: seed `[1]` encrypts
`"hi"` to seed `[2]` under a 12-byte zero nonce. -/
def wEnc : String × Envelope :=
  (encryptMessage toyCrypto (generateKeyPair toyCrypto [(1 : Fin 256)]).publicKey
    (generateKeyPair toyCrypto [(1 : Fin 256)]).privateKey
    (List.replicate 12 (0 : Fin 256)) 0 "hi"
    (generateKeyPair toyCrypto [(2 : Fin 256)]).publicKey).getD ("", ⟨"", "", ""⟩)

theorem encrypt_decrypt_roundtrip_witness :
    decryptMessage toyCrypto (generateKeyPair toyCrypto [(2 : Fin 256)]).privateKey
      (generateKeyPair toyCrypto [(1 : Fin 256)]).publicKey wEnc.2.toWire =
      some { senderPublicKey := (generateKeyPair toyCrypto [(1 : Fin 256)]).publicKey
             message := "hi"
             timestamp := 0 } :=
  encrypt_decrypt_roundtrip toyCrypto [(1 : Fin 256)] [(2 : Fin 256)]
    (List.replicate 12 (0 : Fin 256)) 0 "hi" wEnc.1 wEnc.2 (by decide) (by rfl)

/-! ### Claim C2 -/

/-- Concrete envelope for the signature-tampering scenario: seed `[3]`
encrypts `"hi"` to seed `[4]`. -/
def cexPair : String × Envelope :=
  (encryptMessage toyCrypto (generateKeyPair toyCrypto [(3 : Fin 256)]).publicKey
    (generateKeyPair toyCrypto [(3 : Fin 256)]).privateKey
    (List.replicate 12 (0 : Fin 256)) 0 "hi"
    (generateKeyPair toyCrypto [(4 : Fin 256)]).publicKey).getD ("", ⟨"", "", ""⟩)

/-- The incoming envelope with the first byte of its signature changed
(`03...` becomes `00...`): still well-formed hex of the same length, but
the signature no longer verifies over the ciphertext. -/
def tamperedEnvelope : WireEnvelope :=
  { encrypted := cexPair.2.encrypted
    nonce := some cexPair.2.nonce
    signature := "00" ++ cexPair.2.signature.drop 2 }

set_option maxRecDepth 4000 in
/-- C2 (behaviour at the failing input): the Ed25519 check that
`decryptMessage` performs on the tampered envelope is `false`, yet
`decryptMessage` still returns the decrypted plaintext instead of stopping
with a `SignatureInvalid` failure — the source merely logs
`'Signature verification failed'` and continues into decryption. -/
theorem decrypt_ignores_invalid_signature :
    toyCrypto.edVerify ((hexToBytes tamperedEnvelope.signature).getD [])
      ((hexToBytes tamperedEnvelope.encrypted).getD [])
      ((hexToBytes (toHex (toyCrypto.edPub [(3 : Fin 256)]))).getD []) = false ∧
    decryptMessage toyCrypto (generateKeyPair toyCrypto [(4 : Fin 256)]).privateKey
      (generateKeyPair toyCrypto [(3 : Fin 256)]).publicKey tamperedEnvelope =
      some { senderPublicKey := (generateKeyPair toyCrypto [(3 : Fin 256)]).publicKey
             message := "hi"
             timestamp := 0 } := by
  constructor
  · decide
  · decide

/-! ### Claim C10 -/

/-- C10: `decryptMessage` is total at its public interface — every failure
path yields `null` (`none`) instead of propagating an exception: a missing
or empty `nonce` field, an origin identity whose JSON fails to parse,
malformed (odd-length) hex in the signature, ciphertext, nonce or key
fields, an AEAD tag mismatch on the actual shared secret, nonce bytes and
ciphertext bytes reached during decryption, and a decrypted payload that
fails to parse as JSON. -/
theorem decryptMessage_null_on_failure (C : CryptoPrims) (keys : KeyPairBundle)
    (origin : String) (enc : WireEnvelope) :
    (enc.nonce = none → decryptMessage C keys origin enc = none) ∧
    (enc.nonce = some "" → decryptMessage C keys origin enc = none) ∧
    (C.jsonDecId origin = none → decryptMessage C keys origin enc = none) ∧
    (hexToBytes enc.signature = none → decryptMessage C keys origin enc = none) ∧
    (hexToBytes enc.encrypted = none → decryptMessage C keys origin enc = none) ∧
    (∀ n, enc.nonce = some n → hexToBytes n = none →
      decryptMessage C keys origin enc = none) ∧
    (∀ snd, C.jsonDecId origin = some snd → hexToBytes snd.ed25519 = none →
      decryptMessage C keys origin enc = none) ∧
    (∀ snd, C.jsonDecId origin = some snd → hexToBytes snd.x25519 = none →
      decryptMessage C keys origin enc = none) ∧
    (hexToBytes keys.x25519.privateKey = none → decryptMessage C keys origin enc = none) ∧
    (∀ n snd edB sigB ctB xB sxB nB,
      enc.nonce = some n → ¬n = "" →
      C.jsonDecId origin = some snd →
      hexToBytes snd.ed25519 = some edB →
      hexToBytes enc.signature = some sigB →
      hexToBytes enc.encrypted = some ctB →
      hexToBytes keys.x25519.privateKey = some xB →
      hexToBytes snd.x25519 = some sxB →
      hexToBytes n = some nB →
      C.chachaDec (C.xShared xB sxB) nB ctB = none →
      decryptMessage C keys origin enc = none) ∧
    (∀ n snd edB sigB ctB xB sxB nB decB,
      enc.nonce = some n → ¬n = "" →
      C.jsonDecId origin = some snd →
      hexToBytes snd.ed25519 = some edB →
      hexToBytes enc.signature = some sigB →
      hexToBytes enc.encrypted = some ctB →
      hexToBytes keys.x25519.privateKey = some xB →
      hexToBytes snd.x25519 = some sxB →
      hexToBytes n = some nB →
      C.chachaDec (C.xShared xB sxB) nB ctB = some decB →
      C.jsonDecPayload (C.utf8Dec decB) = none →
      decryptMessage C keys origin enc = none) := by
  refine ⟨?_, ?_, ?_, ?_, ?_, ?_, ?_, ?_, ?_, ?_, ?_⟩ <;> intros <;>
    unfold decryptMessage <;>
    repeat first
      | rfl
      | simp_all
      | split
      | dsimp only

/-- An envelope whose final ciphertext byte (`99`) is not the correct toy
AEAD tag, so `chachaDec` fails on the shared secret of seeds `[7]` and
`[6]`. -/
def badTagEnvelope : WireEnvelope :=
  { encrypted := toHex (toyEncode "zz" ++ [(99 : Fin 256)])
    nonce := some (toHex [(0 : Fin 256)])
    signature := "00" }

/-- An envelope carrying a correctly encrypted ciphertext whose plaintext
`"zz"` is not a valid payload encoding, so the payload parse fails after
decryption succeeds. -/
def badPayloadEnvelope : WireEnvelope :=
  { encrypted := toHex (toyCrypto.chachaEnc
      (toyCrypto.xShared [(7 : Fin 256)] [(6 : Fin 256)]) [(0 : Fin 256)] (toyEncode "zz"))
    nonce := some (toHex [(0 : Fin 256)])
    signature := "00" }

theorem decryptMessage_null_on_failure_witness :
    (decryptMessage toyCrypto (generateKeyPair toyCrypto [(7 : Fin 256)]).privateKey
      (generateKeyPair toyCrypto [(6 : Fin 256)]).publicKey
      { encrypted := "", nonce := none, signature := "" } = none) ∧
    (decryptMessage toyCrypto (generateKeyPair toyCrypto [(7 : Fin 256)]).privateKey
      (generateKeyPair toyCrypto [(6 : Fin 256)]).publicKey
      { encrypted := "", nonce := some "00", signature := "0" } = none) ∧
    (decryptMessage toyCrypto (generateKeyPair toyCrypto [(7 : Fin 256)]).privateKey
      (generateKeyPair toyCrypto [(6 : Fin 256)]).publicKey badTagEnvelope = none) ∧
    (decryptMessage toyCrypto (generateKeyPair toyCrypto [(7 : Fin 256)]).privateKey
      (generateKeyPair toyCrypto [(6 : Fin 256)]).publicKey badPayloadEnvelope = none) :=
  ⟨(decryptMessage_null_on_failure toyCrypto
      (generateKeyPair toyCrypto [(7 : Fin 256)]).privateKey
      (generateKeyPair toyCrypto [(6 : Fin 256)]).publicKey
      { encrypted := "", nonce := none, signature := "" }).1 rfl,
   (decryptMessage_null_on_failure toyCrypto
      (generateKeyPair toyCrypto [(7 : Fin 256)]).privateKey
      (generateKeyPair toyCrypto [(6 : Fin 256)]).publicKey
      { encrypted := "", nonce := some "00", signature := "0" }).2.2.2.1 (by decide),
   (decryptMessage_null_on_failure toyCrypto
      (generateKeyPair toyCrypto [(7 : Fin 256)]).privateKey
      (generateKeyPair toyCrypto [(6 : Fin 256)]).publicKey
      badTagEnvelope).2.2.2.2.2.2.2.2.2.1
     (toHex [(0 : Fin 256)])
     { ed25519 := toHex (toyCrypto.edPub [(6 : Fin 256)])
       x25519 := toHex (toyCrypto.xPub [(6 : Fin 256)]) }
     [(6 : Fin 256)] [(0 : Fin 256)] (toyEncode "zz" ++ [(99 : Fin 256)])
     [(7 : Fin 256)] [(6 : Fin 256)] [(0 : Fin 256)]
     rfl (by decide) (by decide) (by decide) (by decide) (by decide) (by decide)
     (by decide) (by decide) (by decide),
   (decryptMessage_null_on_failure toyCrypto
      (generateKeyPair toyCrypto [(7 : Fin 256)]).privateKey
      (generateKeyPair toyCrypto [(6 : Fin 256)]).publicKey
      badPayloadEnvelope).2.2.2.2.2.2.2.2.2.2
     (toHex [(0 : Fin 256)])
     { ed25519 := toHex (toyCrypto.edPub [(6 : Fin 256)])
       x25519 := toHex (toyCrypto.xPub [(6 : Fin 256)]) }
     [(6 : Fin 256)] [(0 : Fin 256)]
     (toyCrypto.chachaEnc (toyCrypto.xShared [(7 : Fin 256)] [(6 : Fin 256)])
       [(0 : Fin 256)] (toyEncode "zz"))
     [(7 : Fin 256)] [(6 : Fin 256)] [(0 : Fin 256)] (toyEncode "zz")
     rfl (by decide) (by decide) (by decide) (by decide) (by decide) (by decide)
     (by decide) (by decide) (by decide) (by decide)⟩

/-! ### Claims C6 and C7 -/

/-- A format-valid destination identity string (both keys 64 hex chars). -/
def cexDest : String :=
  toyEncId { ed25519 := toHex (List.replicate 32 (2 : Fin 256))
             x25519 := toHex (List.replicate 32 (2 : Fin 256)) }

/-- A format-valid origin identity string. -/
def cexOrigin : String :=
  toyEncId { ed25519 := toHex (List.replicate 32 (1 : Fin 256))
             x25519 := toHex (List.replicate 32 (1 : Fin 256)) }

/-- A format-valid `encryptedMessage` JSON string. -/
def cexEm : String :=
  toyEncEnv { encrypted := some "ab", nonce := some "cd", signature := some "ef" }

/-- A format-valid (128 hex chars) but cryptographically wrong request
signature. -/
def cexSig : String :=
  String.mk (List.replicate 128 '0')

/-- A `/send` request that passes every shape check. -/
def cexReq : SendRequest :=
  { encryptedMessage := some cexEm, destination := some cexDest,
    origin := some cexOrigin, timestamp := some 5, signature := some cexSig }

/-- The same request without the `origin` field. -/
def noOriginReq : SendRequest :=
  { encryptedMessage := some cexEm, destination := some cexDest,
    origin := none, timestamp := some 5, signature := some cexSig }

set_option maxRecDepth 8000 in
/-- C6 (refutation at concrete inputs): a request whose timestamp is far
outside the window (server clock 100, timestamp 5, tolerance 2) and the
same request with an in-window timestamp but an invalid signature produce
the *identical* observable rejection — the single 401
`'Unauthorized: Invalid or expired signature'` — so the two conditions are
not distinguishable by the caller. -/
theorem send_rejections_indistinguishable :
    sendHandler toyCrypto [] 100 2 cexReq = SendResponse.unauthorized ∧
    sendHandler toyCrypto [] 6 2 cexReq = SendResponse.unauthorized := by
  constructor
  · decide
  · decide

/-- C6 (amended): every authentication-stage rejection — expired or future
timestamp just like a cryptographically invalid request signature — is
surfaced through `verifyRequestSignature` returning `false` and collapses
into the single `unauthorized` response; only malformed input and
recipient-not-found are distinct conditions. -/
theorem sendHandler_single_unauthorized (C : CryptoPrims) (db : List RecipientRec)
    (now : Int) (tolerance : Nat) (req : SendRequest) (o : String)
    (hem : strFalsy req.encryptedMessage = false)
    (hdest : strFalsy req.destination = false)
    (hts : intFalsy req.timestamp = false)
    (hsg : strFalsy req.signature = false)
    (htsPos : ¬req.timestamp.getD 0 ≤ 0)
    (h128 : isHex128 (req.signature.getD "") = true)
    (hvd : isValidKeyObject C (req.destination.getD "") = true)
    (ho : req.origin = some o)
    (hoNe : ¬o = "")
    (hvo : isValidKeyObject C o = true)
    (hvem : isValidEncryptedMessage C (req.encryptedMessage.getD "") = true)
    (hv : verifyRequestSignature C tolerance now o (req.timestamp.getD 0)
        (req.destination.getD "") (req.encryptedMessage.getD "") (req.signature.getD "")
        = false) :
    sendHandler C db now tolerance req = SendResponse.unauthorized := by
  simp [sendHandler, hem, hdest, hts, hsg, ho, hoNe, htsPos, h128, hvd, hvo, hvem, hv]

set_option maxRecDepth 8000 in
theorem sendHandler_single_unauthorized_witness :
    sendHandler toyCrypto [] 6 2 cexReq = SendResponse.unauthorized :=
  sendHandler_single_unauthorized toyCrypto [] 6 2 cexReq cexOrigin
    (by decide) (by decide) (by decide) (by decide) (by decide) (by decide)
    (by decide) rfl (by decide) (by decide) (by decide) (by decide)

set_option maxRecDepth 8000 in
/-- C7 (refutation at a concrete input): a request that is valid in every
respect except that `origin` is absent is *not* rejected during shape
validation with the malformed-request response; it reaches the
authentication step and is rejected with the 401 `unauthorized`
response. -/
theorem missing_origin_not_malformed :
    sendHandler toyCrypto [] 6 2 noOriginReq = SendResponse.unauthorized ∧
    sendHandler toyCrypto [] 6 2 noOriginReq ≠ SendResponse.missingFields := by
  constructor
  · decide
  · decide

/-- C7 (amended): a missing `encryptedMessage`, `destination`, `timestamp`
or `signature` is rejected as `missingFields` during shape validation,
before any cryptographic work and for every choice of primitives; but a
missing `origin` passes shape validation and is rejected only at the
authentication step, with the `unauthorized` response (the `!origin`
disjunct short-circuits, so no signature verification is attempted
there either). -/
theorem sendHandler_shape_validation (C : CryptoPrims) (db : List RecipientRec)
    (now : Int) (tolerance : Nat) (req : SendRequest) :
    ((strFalsy req.encryptedMessage || strFalsy req.destination ||
      intFalsy req.timestamp || strFalsy req.signature) = true →
      sendHandler C db now tolerance req = SendResponse.missingFields) ∧
    (req.origin = none →
      strFalsy req.encryptedMessage = false → strFalsy req.destination = false →
      intFalsy req.timestamp = false → strFalsy req.signature = false →
      ¬req.timestamp.getD 0 ≤ 0 → isHex128 (req.signature.getD "") = true →
      isValidKeyObject C (req.destination.getD "") = true →
      isValidEncryptedMessage C (req.encryptedMessage.getD "") = true →
      sendHandler C db now tolerance req = SendResponse.unauthorized) := by
  constructor
  · intro h
    unfold sendHandler
    rw [if_pos h]
  · intro ho hem hdest hts hsg htsPos h128 hvd hvem
    simp [sendHandler, ho, hem, hdest, hts, hsg, htsPos, h128, hvd, hvem]

set_option maxRecDepth 8000 in
theorem sendHandler_shape_validation_witness :
    sendHandler toyCrypto [] 6 2 noOriginReq = SendResponse.unauthorized :=
  (sendHandler_shape_validation toyCrypto [] 6 2 noOriginReq).2 rfl
    (by decide) (by decide) (by decide) (by decide) (by decide) (by decide)
    (by decide) (by decide)
